import Mathlib

/-!
Verification of the PaperMind research-paper summarizer (`main.py`).

This file gives a shallow embedding of the pure algorithmic core of the
pipeline — section segmentation (`AdvancedSectionExtractor`), entity
extraction (`EnhancedEntityExtractor`), flowchart generation
(`FlowchartGenerator`) and the hierarchical summarizer
(`HierarchicalSummarizer`) — and proves or refutes the frozen claims
about it.

Conventions of the embedding:
* Python strings are Lean `String`s (sequences of unicode code points;
  Python `len` = `String.length`).  The Python-level string operations
  the code uses (`split`, `strip`, `lower`, `count`, `join`, slicing,
  `replace`, `in`) are re-implemented below on `List Char` under `py*`
  names, each matching the CPython semantics of the operation for the
  character classes that occur in this program (ASCII text; the
  whitespace class is approximated by `Char.isWhitespace`, i.e. space,
  tab, CR, LF, which covers every character the program's regexes and
  inputs exercise).
* External collaborators (the NLTK sentence tokenizer, the embedding /
  generation / keyword ML models, the `re` regex engine applied to the
  entity pattern library, numpy's `argsort`) are capability parameters,
  exactly as the spec's §6 prescribes.  In-repository code is embedded,
  never parameterized.
* The two heavy model handles (`self.sentence_encoder`,
  `self.summarizer`) are tracked as residency booleans
  (`true` = the field is not `None`); load/unload methods become state
  transformers and the stateful pipeline functions additionally return
  the full trace of states they pass through, so that temporal claims
  about residency can be stated.
* Scanning functions that are not structurally recursive take an
  explicit fuel argument; every such scanner consumes at least one
  character per step, so fuel `length + 1` (always supplied by the
  wrapper) makes the fueled function extensionally equal to the
  unbounded scan it embeds.
-/

namespace PaperMind

/-! ### Python string primitives -/

/-- Python's whitespace test for `str.split()` / `str.strip()` / `\s`.
Approximated by `Char.isWhitespace` (space, tab, CR, LF). -/
def pyIsSpace (c : Char) : Bool := c.isWhitespace

/-- `str.strip()` on a character list: drop whitespace from both ends. -/
def pyStripList (l : List Char) : List Char :=
  ((l.dropWhile pyIsSpace).reverse.dropWhile pyIsSpace).reverse

/-- `str.strip()`. -/
def pyStrip (s : String) : String := String.mk (pyStripList s.data)

/-- `str.lower()` (ASCII case folding, which covers the program's inputs). -/
def pyLower (s : String) : String := String.mk (s.data.map Char.toLower)

/-- Helper for `str.split()` with no separator: split on whitespace runs. -/
def pySplitWsGo : List Char → List Char → List String
  | acc, [] => if acc = [] then [] else [String.mk acc.reverse]
  | acc, c :: cs =>
      if pyIsSpace c then
        if acc = [] then pySplitWsGo [] cs
        else String.mk acc.reverse :: pySplitWsGo [] cs
      else pySplitWsGo (c :: acc) cs

/-- Python `str.split()` (no argument): the list of maximal non-whitespace
runs; leading/trailing/repeated whitespace produces no empty items. -/
def pySplitWs (s : String) : List String := pySplitWsGo [] s.data

/-- Python `sep.join(l)`. -/
def pyJoin (sep : String) : List String → String
  | [] => ""
  | [x] => x
  | x :: xs => x ++ sep ++ pyJoin sep xs

/-- Python slicing `s[:n]` (by code points, as in Python). -/
def pyTake (s : String) (n : Nat) : String := String.mk (s.data.take n)

/-- Python `s.endswith(suf)`. -/
def pyEndsWith (s suf : String) : Bool := suf.data.isSuffixOf s.data

/-- Python `s.startswith(pre)`. -/
def pyStartsWith (s pre : String) : Bool := pre.data.isPrefixOf s.data

/-- Python `needle in hay` (substring containment). -/
def pyContainsGo (needle : List Char) : List Char → Bool
  | [] => needle.isPrefixOf []
  | c :: cs => needle.isPrefixOf (c :: cs) || pyContainsGo needle cs

/-- Python `needle in hay` on strings. -/
def pyContains (hay needle : String) : Bool := pyContainsGo needle.data hay.data

/-- Fueled scanner for Python `str.count(pat)`: non-overlapping
occurrences, scanning left to right.  Fuel `length + 1` is always enough
because every step consumes at least one character. -/
def pyCountGo (pat : List Char) : Nat → List Char → Nat
  | 0, _ => 0
  | _ + 1, [] => 0
  | fuel + 1, c :: cs =>
      if pat.isPrefixOf (c :: cs) then 1 + pyCountGo pat fuel ((c :: cs).drop pat.length)
      else pyCountGo pat fuel cs

/-- Python `text.count(pat)`.  (`text.count("")` is `len(text)+1` in
Python; the program only counts validated entities of length ≥ 2.) -/
def pyCount (text pat : String) : Nat :=
  if pat.data = [] then text.length + 1 else pyCountGo pat.data (text.data.length + 1) text.data

/-- Fueled scanner for Python `s.replace(old, new)`: non-overlapping,
left to right. -/
def pyReplaceGo (old new : List Char) : Nat → List Char → List Char
  | 0, l => l
  | _ + 1, [] => []
  | fuel + 1, c :: cs =>
      if old.isPrefixOf (c :: cs) then new ++ pyReplaceGo old new fuel ((c :: cs).drop old.length)
      else c :: pyReplaceGo old new fuel cs

/-- Python `s.replace(old, new)` (the program never calls it with an
empty `old`). -/
def pyReplace (s old new : String) : String :=
  if old.data = [] then s
  else String.mk (pyReplaceGo old.data new.data (s.data.length + 1) s.data)

/-- Fueled scanner for Python `s.split(sep)` with a nonempty separator. -/
def pySplitOnGo (sep : List Char) : Nat → List Char → List Char → List String
  | 0, acc, l => [String.mk (acc.reverse ++ l)]
  | _ + 1, acc, [] => [String.mk acc.reverse]
  | fuel + 1, acc, c :: cs =>
      if sep.isPrefixOf (c :: cs) then
        String.mk acc.reverse :: pySplitOnGo sep fuel [] ((c :: cs).drop sep.length)
      else pySplitOnGo sep fuel (c :: acc) cs

/-- Python `s.split(sep)` for a nonempty `sep`: keeps empty fields, e.g.
`"a..b".split(".") = ["a", "", "b"]` and `"".split(".") = [""]`. -/
def pySplitOn (s sep : String) : List String :=
  if sep.data = [] then [s] else pySplitOnGo sep.data (s.data.length + 1) [] s.data

/-! ### `AdvancedSectionExtractor` (section segmentation)

`SECTION_KEYWORDS` is the class-level keyword table, in declaration
order (Python dicts iterate in insertion order, which the code relies on
for first-match-wins).  `match_section` embeds `_match_section`,
`group_into_sections` embeds `_group_into_sections`, and
`extract_sections` embeds the post-parsing tail of
`extract_sections_from_pdf` (grouping followed by deletion of the
`references` key); the `fitz` PDF parsing that produces the structured
content list is the external parse capability, so the embedded function
is quantified over that list. -/

def SECTION_KEYWORDS : List (String × List String) := [
  ("abstract", ["abstract"]),
  ("introduction", ["introduction", "background"]),
  ("related_work", ["related work", "literature review", "prior work", "previous work"]),
  ("methodology", ["method", "methodology", "approach", "model", "architecture",
                   "proposed method", "proposed approach", "our approach", "our method"]),
  ("experiments", ["experiment", "experimental setup", "experimental results",
                   "experimental design", "evaluation setup"]),
  ("results", ["results", "findings", "performance", "experimental results"]),
  ("discussion", ["discussion", "analysis", "ablation study", "ablation studies"]),
  ("conclusion", ["conclusion", "conclusions", "concluding remarks", "future work",
                  "summary", "limitations"]),
  ("references", ["references", "bibliography", "works cited"])]

/-- Regex word character `\w` = `[A-Za-z0-9_]` (the table's keywords and
the program's header texts are ASCII, so the ASCII reading of `\w` is
exact here). -/
def isWordChar (c : Char) : Bool := c.isAlphanum || c = '_'

/-- `re.sub(r'^\d+\.?\s*', '', ·)`: if the text starts with one or more
digits, remove them together with an optional following dot and any
following whitespace; otherwise leave the text unchanged.  (The pattern
is anchored, so `re.sub` performs at most this one replacement.) -/
def dropLeadingNumber (l : List Char) : List Char :=
  if l.takeWhile Char.isDigit = [] then l
  else
    let r := l.dropWhile Char.isDigit
    let r2 := match r with
      | '.' :: t => t
      | _ => r
    r2.dropWhile pyIsSpace

/-- The character class `[ivxlcdm]` of the roman-numeral pattern. -/
def isRomanChar (c : Char) : Bool :=
  c = 'i' || c = 'v' || c = 'x' || c = 'l' || c = 'c' || c = 'd' || c = 'm'

/-- `re.sub(r'^[ivxlcdm]+\.?\s*', '', ·)`.  Note that the character
class matches the leading letters of ordinary lowercase words as well
(e.g. the `i` of `introduction` or the `m` of `methodology`), exactly as
the Python regex does. -/
def dropLeadingRoman (l : List Char) : List Char :=
  if l.takeWhile isRomanChar = [] then l
  else
    let r := l.dropWhile isRomanChar
    let r2 := match r with
      | '.' :: t => t
      | _ => r
    r2.dropWhile pyIsSpace

/-- `re.search(r'\b' + kw + r'\b', text)` succeeds at a position iff the
keyword is a prefix of the remaining text and both ends sit on a word
boundary.  All table keywords begin and end with letters, so the
boundary condition is: the preceding character (if any) and the
following character (if any) are not word characters. -/
def wholeWordAt (kw : List Char) (l : List Char) : Bool :=
  kw.isPrefixOf l &&
    (match l.drop kw.length with
     | [] => true
     | c :: _ => !isWordChar c)

/-- Scan all positions of the text for a whole-word occurrence of `kw`,
tracking the previous character for the leading word boundary. -/
def hasWholeWordGo (kw : List Char) : Option Char → List Char → Bool
  | prev, l =>
      ((match prev with
        | none => true
        | some c => !isWordChar c) && wholeWordAt kw l) ||
      (match l with
       | [] => false
       | c :: cs => hasWholeWordGo kw (some c) cs)

/-- The three-way test of `_match_section` for one keyword:
`text_clean.startswith(keyword) or text_clean == keyword or
re.search(r'\b' + re.escape(keyword) + r'\b', text_clean)`. -/
def keywordHits (text_clean : List Char) (kw : String) : Bool :=
  kw.data.isPrefixOf text_clean || text_clean = kw.data || hasWholeWordGo kw.data none text_clean

/-- The keyword-table loop of `_match_section`: first category any of
whose synonyms matches wins (table iteration order). -/
def matchFirst (text_clean : List Char) : List (String × List String) → Option String
  | [] => none
  | (sec, kws) :: rest =>
      if kws.any (fun kw => keywordHits text_clean kw) then some sec
      else matchFirst text_clean rest

/-- `AdvancedSectionExtractor._match_section`: strip the numbering
prefixes, strip whitespace, then scan the keyword table. -/
def match_section (text_lower : String) : Option String :=
  let text_clean := pyStripList (dropLeadingRoman (dropLeadingNumber text_lower.data))
  matchFirst text_clean SECTION_KEYWORDS

/-- One entry of the `structured_content` list consumed by
`_group_into_sections`: `_group_into_sections` reads only the `text` and
`is_header` fields of the block dicts produced by `_extract_block_text`
(the font size, bold flag and bbox feed only into `is_header`). -/
structure ContentItem where
  text : String
  is_header : Bool

/-- `defaultdict(list)` accumulation preserving first-insertion key
order: append `v` to the entry of `k`, creating it at the end if absent. -/
def addToSection : List (String × List String) → String → String → List (String × List String)
  | [], k, v => [(k, [v])]
  | (k1, vs) :: rest, k, v =>
      if k1 = k then (k1, vs ++ [v]) :: rest
      else (k1, vs) :: addToSection rest k v

/-- The block loop of `_group_into_sections`: a block that matches a
section keyword and is a header (or is shorter than 80 chars) switches
the current section and is dropped; blocks shorter than 20 chars are
dropped as noise; everything else is appended to the current section. -/
def groupGo : List ContentItem → String → List (String × List String) → List (String × List String)
  | [], _, acc => acc
  | item :: rest, current, acc =>
      let text_lower := pyStrip (pyLower item.text)
      match match_section text_lower with
      | some m =>
          if item.is_header || item.text.length < 80 then groupGo rest m acc
          else if item.text.length < 20 then groupGo rest current acc
          else groupGo rest current (addToSection acc current item.text)
      | none =>
          if item.text.length < 20 then groupGo rest current acc
          else groupGo rest current (addToSection acc current item.text)

/-- `AdvancedSectionExtractor._group_into_sections`: group blocks under
the current section (initially `introduction`), then space-join each
section's blocks, keeping only nonempty sections. -/
def group_into_sections (structured_content : List ContentItem) : List (String × String) :=
  ((groupGo structured_content "introduction" []).filter (fun kv => kv.2 ≠ [])).map
    (fun kv => (kv.1, pyJoin " " kv.2))

/-- The section-map construction of
`AdvancedSectionExtractor.extract_sections_from_pdf` after the PDF parse
capability has produced `structured_content`: group into sections, then
delete the `references` key if present (keys are unique, so deleting the
key is filtering it out). -/
def extract_sections (structured_content : List ContentItem) : List (String × String) :=
  (group_into_sections structured_content).filter (fun kv => kv.1 ≠ "references")

/-- The fixed section-label vocabulary of the spec (the `SectionMap`
labels that can survive to the caller). -/
def section_vocab : List String :=
  ["abstract", "introduction", "related_work", "methodology",
   "experiments", "results", "discussion", "conclusion"]

/-! ### `EnhancedEntityExtractor` (pattern-based entity extraction)

The regex ENGINE is an external capability (`finditer`, mapping a
pattern source string and a text to the sequence of `match.group(0)`
surface strings); the pattern DATABASE of `_build_entity_patterns` is
in-repository data and is embedded verbatim.  The NER pipeline branch of
`__init__` only logs a fallback and `extract_entities` never consults
`self.ner_pipeline`, so it does not appear here.  Python's `set`
iterates in an unspecified order; the embedding determinizes it with
`List.dedup`, which is harmless for every property claimed (distinct
elements, a count-sorted output, caps and key sets are all invariant
under the set's iteration order, because the count sort is total). -/

def entity_patterns : List (String × List String) := [
  ("models", ["\\b(GPT-?[0-9.]+[a-z]*|GPT|ChatGPT)\\b",
              "\\b(BERT|RoBERTa|ALBERT|DistilBERT|DeBERTa|SciBERT)\\b",
              "\\b(T5|FLAN-T5|mT5)\\b",
              "\\b(LLaMA|Llama-?[0-9]*)\\b",
              "\\b(Claude|Gemini|Mistral|Mixtral)\\b",
              "\\b(ResNet|VGG|Inception|DenseNet|EfficientNet)[-\\s]?[0-9]*",
              "\\b(YOLO|YOLOv[0-9]+)\\b",
              "\\b(ViT|Vision Transformer|Swin Transformer)\\b",
              "\\b(CLIP|DALL-?E|Stable Diffusion)\\b",
              "\\b(Transformer|LSTM|GRU|BiLSTM)\\b"]),
  ("datasets", ["\\b(ImageNet[-\\s]?[0-9]*k?)\\b",
                "\\b(COCO|MS-?COCO)\\b",
                "\\b(CIFAR-?(?:10|100))\\b",
                "\\b(MNIST|Fashion-?MNIST)\\b",
                "\\b(SQuAD[0-9.]*)\\b",
                "\\b(GLUE|SuperGLUE)\\b",
                "\\b(WikiText[-\\s]?[0-9]*)\\b",
                "\\b(Common Crawl|C4)\\b",
                "\\b(ADE20K|Cityscapes|Pascal VOC)\\b"]),
  ("metrics", ["\\b(accuracy|precision|recall|F1[-\\s]?score)\\b",
               "\\b(BLEU[-\\s]?[0-9]*|ROUGE[-\\s]?[LN0-9]*)\\b",
               "\\b(mAP|IoU|mIoU)\\b",
               "\\b(perplexity|cross-entropy)\\b",
               "\\b(AUC|ROC|AUC-ROC)\\b",
               "\\b(METEOR|CIDEr|SPICE)\\b"]),
  ("frameworks", ["\\b(PyTorch|TensorFlow|JAX|Keras)\\b",
                  "\\b(Hugging ?Face|HuggingFace)\\b",
                  "\\b(scikit-learn|sklearn)\\b"])]

/-- The five canonical entity categories that `extract_entities` always
emits (loop `for key in ['models', 'datasets', 'metrics', 'frameworks',
'techniques']`). -/
def entity_categories : List String :=
  ["models", "datasets", "metrics", "frameworks", "techniques"]

/-- `string.punctuation`: the 32 ASCII punctuation characters, i.e. the
printable ASCII range minus letters, digits and space. -/
def isPunctChar (c : Char) : Bool :=
  (33 ≤ c.toNat && c.toNat ≤ 47) || (58 ≤ c.toNat && c.toNat ≤ 64) ||
  (91 ≤ c.toNat && c.toNat ≤ 96) || (123 ≤ c.toNat && c.toNat ≤ 126)

/-- The punctuation count of `_validate_entity`:
`sum(1 for c in entity if c in string.punctuation)`. -/
def punctCount (entity : String) : Nat := (entity.data.filter isPunctChar).length

/-- `EnhancedEntityExtractor._validate_entity`.  The density test
`special_count / len(entity) > 0.3` is IEEE-double division compared
against the double literal `0.3`; for every `len ∈ [2,50]` (the only
lengths that reach the test) the comparison agrees exactly with the
rational comparison `10 * special_count > 3 * len`, because the nearest
fraction `s/len` to `3/10` on that grid differs from it by at least
`1/500`, which dwarfs the `≈ 2^-54` relative rounding of the division
and of the literal.  `c.isalpha()` is embedded as ASCII `Char.isAlpha`
(entity surface strings from the ASCII pattern library are ASCII). -/
def validate_entity (entity _entity_type _context : String) : Bool :=
  if entity.length < 2 || 50 < entity.length then false
  else if !(entity.data.any Char.isAlpha) then false
  else if 3 * entity.length < 10 * punctCount entity then false
  else true

/-- The per-category accumulation loop of `extract_entities`: every
pattern's matches are stripped, validated against the source text and
collected into a set (embedded as a deduplicated list). -/
def category_matches (finditer : String → String → List String) (text : String)
    (entity_type : String) (pats : List String) : List String :=
  ((((pats.map (fun p => finditer p text)).flatten).map pyStrip).filter
    (fun e => validate_entity e entity_type text)).dedup

/-- Descending-frequency comparison used by
`sorted(entity_list, key=lambda e: -entity_counts[e])`:
`a` may precede `b` iff `text.count(b) ≤ text.count(a)`. -/
def freqGe (text : String) (a b : String) : Prop := pyCount text b ≤ pyCount text a

instance (text : String) : DecidableRel (freqGe text) :=
  fun a b => inferInstanceAs (Decidable (pyCount text b ≤ pyCount text a))

instance (text : String) : IsTotal String (freqGe text) :=
  ⟨fun a b => Nat.le_total (pyCount text b) (pyCount text a)⟩

instance (text : String) : IsTrans String (freqGe text) :=
  ⟨fun _ _ _ h1 h2 => le_trans h2 h1⟩

/-- `EnhancedEntityExtractor.extract_entities`: pattern matching with
validation into per-category sets, then per category a stable sort by
descending in-text frequency truncated to 15 (Python's `sorted` is
stable, as is `List.insertionSort`), then the canonical-keys completion
loop, which appends the missing categories with empty lists in canonical
order.  The association list preserves Python's dict insertion order. -/
def extract_entities (finditer : String → String → List String) (text : String) :
    List (String × List String) :=
  let entities := (entity_patterns.map
      (fun cp => (cp.1, category_matches finditer text cp.1 cp.2))).filter
      (fun cp => cp.2 ≠ [])
  let final1 := entities.map
      (fun cp => (cp.1, (cp.2.insertionSort (freqGe text)).take 15))
  final1 ++ (entity_categories.filter
      (fun k => !((final1.map Prod.fst).contains k))).map (fun k => (k, ([] : List String)))

/-! ### `FlowchartGenerator`

`nltk.sent_tokenize` is the external sentence tokenizer capability
(`sent_tok`); everything else is in-repository code embedded below. -/

def PROCESS_INDICATORS : List String :=
  ["first", "second", "third", "then", "next", "finally", "after",
   "step", "stage", "phase", "process", "procedure"]

def PROCESS_VERBS : List String :=
  ["train", "test", "evaluate", "collect", "preprocess", "extract",
   "compute", "calculate", "apply", "use", "implement", "generate",
   "propose", "develop", "design", "construct", "build", "optimize"]

/-- The sentence loop of `FlowchartGenerator._extract_steps` over
`sentences[:20]`, carrying the accumulated `steps` and `seen` key set:
keep stripped sentences of length strictly between 30 and 200 that
contain a process indicator or a process verb; truncate to 120 chars and
append an ellipsis when the truncation does not end in a period;
deduplicate by the lowercased 40-char prefix; stop once 6 steps are
collected (the `break` fires right after the append). -/
def extract_stepsGo : List String → List String → List String → List String
  | [], steps, _ => steps
  | sent :: rest, steps, seen =>
      let sent_clean := pyStrip sent
      if !(30 < sent_clean.length && sent_clean.length < 200) then
        extract_stepsGo rest steps seen
      else
        let sent_lower := pyLower sent_clean
        let has_indicator := PROCESS_INDICATORS.any (fun ind => pyContains sent_lower ind)
        let has_verb := PROCESS_VERBS.any (fun verb => pyContains sent_lower verb)
        if has_indicator || has_verb then
          let step0 := pyTake sent_clean 120
          let step := if pyEndsWith step0 "." then step0 else step0 ++ "..."
          let step_key := pyLower (pyTake step 40)
          if seen.contains step_key then extract_stepsGo rest steps seen
          else if 5 ≤ steps.length then steps ++ [step]
          else extract_stepsGo rest (steps ++ [step]) (step_key :: seen)
        else extract_stepsGo rest steps seen

/-- `FlowchartGenerator._extract_steps`. -/
def extract_steps (sentences : List String) : List String :=
  extract_stepsGo (sentences.take 20) [] []

/-- The node-label sanitization of `_build_mermaid`:
`step.replace('"', "'").replace('\n', ' ')`. -/
def clean_step (step : String) : String :=
  pyReplace (pyReplace step "\"" "\x27") "\n" " "

/-- The step-node lines of `_build_mermaid` (`S1`, `S2`, …). -/
def nodeLinesGo (i : Nat) : List String → String
  | [] => ""
  | step :: rest =>
      "    S" ++ toString i ++ "[\"" ++ clean_step step ++ "\"]\n" ++ nodeLinesGo (i + 1) rest

/-- The chain edges of `_build_mermaid`:
`for i in range(len(steps) - 1): S{i+1} --> S{i+2}`. -/
def edgeLines : Nat → Nat → String
  | _, 0 => ""
  | i, k + 1 => "    S" ++ toString i ++ " --> S" ++ toString (i + 1) ++ "\n" ++ edgeLines (i + 1) k

/-- `FlowchartGenerator._build_mermaid`. -/
def build_mermaid (steps : List String) : String :=
  "graph TD\n" ++ "    Start([Start])\n" ++ nodeLinesGo 1 steps ++ "    End([End])\n" ++
  "    Start --> S1\n" ++ edgeLines 1 (steps.length - 1) ++
  "    S" ++ toString steps.length ++ " --> End\n"

/-- `FlowchartGenerator.generate_flowchart`: `None` on text shorter than
100 chars (`not methodology_text` is subsumed: the empty string has
length 0), fewer than 3 sentences, or fewer than 2 extracted steps. -/
def generate_flowchart (sent_tok : String → List String) (methodology_text : String) :
    Option String :=
  if methodology_text.length < 100 then none
  else
    let sentences := sent_tok methodology_text
    if sentences.length < 3 then none
    else
      let steps := extract_steps sentences
      if steps.length < 2 then none
      else some (build_mermaid steps)

/-- The serialized graph `_build_mermaid` produces for exactly two
steps: precisely the four node declarations `Start`, `S1`, `S2`, `End`
and precisely the three edges `Start --> S1`, `S1 --> S2`, `S2 --> End`. -/
def mermaid_two_steps (s1 s2 : String) : String :=
  "graph TD\n" ++ "    Start([Start])\n" ++
  "    S1[\"" ++ clean_step s1 ++ "\"]\n" ++
  "    S2[\"" ++ clean_step s2 ++ "\"]\n" ++
  "    End([End])\n" ++ "    Start --> S1\n" ++ "    S1 --> S2\n" ++ "    S2 --> End\n"

/-! ### `HierarchicalSummarizer`

The model residency state: `sentence_encoder` (resp. `summarizer`) is
`true` iff the corresponding instance field is not `None`.  The stateful
pipeline functions return, besides their value, the final state and the
chronological list of states passed through, so residency-over-time
claims can be stated.  The external capabilities are collected in
`Caps`: the NLTK sentence tokenizer, numpy's `argsort` of the
cosine-similarity scores computed from the encoder's embeddings of the
given quality sentences (for a fixed model this is a function of those
sentences; the only fact used about it is the numpy contract that it
returns a permutation of the index range), the LED generation capability
(text and `max_length` to generated text), and the optional KeyBERT
keyword model (`None` when the library is unavailable). -/

structure MState where
  sentence_encoder : Bool
  summarizer : Bool
deriving DecidableEq, Repr

structure Caps where
  sent_tokenize : String → List String
  argsort : List String → List Nat
  generate : String → Nat → String
  kw_model : Option (String → Nat → List String)

/-- `_load_sentence_encoder`: loads unless already resident; in either
case the field is non-`None` afterwards, the summarizer untouched. -/
def load_sentence_encoder (s : MState) : MState := { s with sentence_encoder := true }

/-- `_unload_sentence_encoder`: deletes the handle if resident; in
either case the field is `None` afterwards. -/
def unload_sentence_encoder (s : MState) : MState := { s with sentence_encoder := false }

/-- `_load_summarizer`. -/
def load_summarizer (s : MState) : MState := { s with summarizer := true }

/-- `_unload_summarizer`. -/
def unload_summarizer (s : MState) : MState := { s with summarizer := false }

/-! #### `preprocess_text`

Six sequential `re.sub`/normalization passes.  Each regex of the source
is hand-compiled to a deterministic scanner; the accompanying comments
record why the greedy backtracking of the Python pattern collapses to
the deterministic parse implemented here. -/

/-- Body of `\[\d+(?:,\s*\d+)*\]` / `\(\d+(?:,\s*\d+)*\)` after the
opening bracket: consume `(,\s*\d+)` groups greedily.  Backtracking to
fewer groups cannot help the closing bracket match, because every
earlier group boundary is followed by `,`, so only the maximal parse can
precede the close. -/
def citeGroupsGo (fuel : Nat) (l : List Char) : List Char :=
  match fuel, l with
  | 0, l => l
  | fuel + 1, ',' :: rest =>
      let rest2 := rest.dropWhile pyIsSpace
      if rest2.takeWhile Char.isDigit = [] then ',' :: rest
      else citeGroupsGo fuel (rest2.dropWhile Char.isDigit)
  | _ + 1, l => l

/-- Try to match a citation marker starting at the opening bracket:
digits, comma groups, closing bracket.  Returns the text after the match. -/
def tryCite (opening closing : Char) (l : List Char) : Option (List Char) :=
  match l with
  | c :: rest =>
      if c = opening then
        if rest.takeWhile Char.isDigit = [] then none
        else
          match citeGroupsGo rest.length (rest.dropWhile Char.isDigit) with
          | c2 :: rest2 => if c2 = closing then some rest2 else none
          | [] => none
      else none
  | [] => none

/-- `re.sub(r'\[\d+(?:,\s*\d+)*\]', '', ·)`. -/
def tryCiteSquare (l : List Char) : Option (List Char) := tryCite '[' ']' l

/-- `re.sub(r'\(\d+(?:,\s*\d+)*\)', '', ·)`. -/
def tryCiteParen (l : List Char) : Option (List Char) := tryCite '(' ')' l

/-- `re.sub(r'http[s]?://\S+', '', ·)` at one position.  The greedy
`[s]?` branch is tried first; when the literal `https://` or `http://`
is present but no non-space character follows, the other branch cannot
match either (the character at offset 4 decides the branch), so the
position fails. -/
def tryUrl (l : List Char) : Option (List Char) :=
  if "https://".data.isPrefixOf l then
    let rest := l.drop 8
    if rest.takeWhile (fun c => !pyIsSpace c) = [] then none
    else some (rest.dropWhile (fun c => !pyIsSpace c))
  else if "http://".data.isPrefixOf l then
    let rest := l.drop 7
    if rest.takeWhile (fun c => !pyIsSpace c) = [] then none
    else some (rest.dropWhile (fun c => !pyIsSpace c))
  else none

/-- `re.sub(r'\S+@\S+', '', ·)` at one position: with greedy `\S+` and
backtracking, a match starting at a non-space position exists iff the
maximal non-space run from it contains `@` strictly inside (not first,
not last), and the match is then the whole run. -/
def tryEmail (l : List Char) : Option (List Char) :=
  match l with
  | [] => none
  | c :: _ =>
      if pyIsSpace c then none
      else
        let run := l.takeWhile (fun d => !pyIsSpace d)
        if ((run.take (run.length - 1)).drop 1).contains '@' then
          some (l.dropWhile (fun d => !pyIsSpace d))
        else none

/-- Generic `re.sub(pat, '', text)` scan for patterns without word
boundaries: try a match at each position, emit the character on failure.
Every successful `try1` of this file consumes at least one character, so
fuel `length + 1` never runs out. -/
def scanSub (try1 : List Char → Option (List Char)) : Nat → List Char → List Char
  | 0, l => l
  | _ + 1, [] => []
  | fuel + 1, c :: cs =>
      match try1 (c :: cs) with
      | some rest => scanSub try1 fuel rest
      | none => c :: scanSub try1 fuel cs

/-- The tail of `\b(fig|figure|table|eq)\.?\s*\d+` after the
alternative: optional dot, whitespace, at least one digit.  If the
with-dot branch fails, the without-dot branch necessarily fails too (the
dot is neither whitespace nor a digit), so the parse is deterministic.
Returns the last matched character and the rest. -/
def figTail (j : List Char) : Option (Char × List Char) :=
  let j2 := match j with
    | '.' :: t => t
    | _ => j
  let k := j2.dropWhile pyIsSpace
  match k.takeWhile Char.isDigit with
  | [] => none
  | d :: ds => some ((d :: ds).getLast (by simp), k.drop (d :: ds).length)

/-- `re.sub(r'\b(fig|figure|table|eq)\.?\s*\d+', '', ·, flags=re.I)` at
one position: requires a word boundary before the alternative (all
alternatives start with a letter, so the previous character must not be
a word character), then tries the alternatives in the pattern's order. -/
def figTry (prev : Option Char) (l : List Char) : Option (Char × List Char) :=
  let boundary := match prev with
    | none => true
    | some c => !isWordChar c
  if !boundary then none
  else
    let tryAlt := fun (alt : String) =>
      if (l.take alt.length).map Char.toLower = alt.data then figTail (l.drop alt.length)
      else none
    match tryAlt "fig" with
    | some r => some r
    | none =>
        match tryAlt "figure" with
        | some r => some r
        | none =>
            match tryAlt "table" with
            | some r => some r
            | none => tryAlt "eq"

/-- `re.sub` scan for the figure/table pattern, tracking the previous
character of the original text for the word boundary (after a match the
previous character is the last matched one, a digit). -/
def scanSubB (try1 : Option Char → List Char → Option (Char × List Char)) :
    Nat → Option Char → List Char → List Char
  | 0, _, l => l
  | _ + 1, _, [] => []
  | fuel + 1, prev, c :: cs =>
      match try1 prev (c :: cs) with
      | some (lastc, rest) => scanSubB try1 fuel (some lastc) rest
      | none => c :: scanSubB try1 fuel (some c) cs

/-- `re.sub(r'\s+', ' ', ·)`: collapse whitespace runs to single spaces. -/
def collapseWsGo : Bool → List Char → List Char
  | _, [] => []
  | inRun, c :: cs =>
      if pyIsSpace c then
        if inRun then collapseWsGo true cs else ' ' :: collapseWsGo true cs
      else c :: collapseWsGo false cs

/-- `HierarchicalSummarizer.preprocess_text`: remove `[n,…]` and `(n,…)`
citations, URLs, email-like tokens and figure/table/equation references,
collapse whitespace, strip. -/
def preprocess_text (text : String) : String :=
  let t1 := scanSub tryCiteSquare (text.data.length + 1) text.data
  let t2 := scanSub tryCiteParen (t1.length + 1) t1
  let t3 := scanSub tryUrl (t2.length + 1) t2
  let t4 := scanSub tryEmail (t3.length + 1) t3
  let t5 := scanSubB figTry (t4.length + 1) none t4
  String.mk (pyStripList (collapseWsGo false t5))

/-! #### Extractive and abstractive stages -/

/-- The quality filter of `extractive_summary`:
`30 < len(s) < 500 and len(s.split()) >= 5`. -/
def quality_sentence (s : String) : Bool :=
  decide (30 < s.length) && decide (s.length < 500) && decide (5 ≤ (pySplitWs s).length)

/-- `n_select = max(3, int(len(quality_sents) * ratio))` at the ratio
0.4 used by `summarize_section`.  `int(n * 0.4)` truncates an IEEE
double product toward zero; for every `n < 2^52` that product truncates
to `⌊2n/5⌋` exactly: the double nearest 0.4 exceeds `2/5` by the
relative amount `2^-54`, so for multiples of 5 the product rounds to the
integer `2n/5` itself (the excess is at most one rounding step, and
truncation of `2n/5 + ulp` is still `2n/5`), and otherwise `2n/5` is at
least `1/5` away from any integer while the total floating-point error
is below `2n/5 · 2^-53 < 1/5`. -/
def n_select_val (n : Nat) : Nat := max 3 (2 * n / 5)

/-- The selection core of `extractive_summary` given the argsort
permutation of the similarity scores: `argsort(scores)[-n_select:]` (a
Python tail slice: the whole list when `n_select` exceeds its length),
re-sorted ascending (`sorted(top_indices)`), indexed back into the
quality sentences (all indices are in range for any argsort permutation;
out-of-range indices default to `""`). -/
def selected_sentences (quality_sents : List String) (order : List Nat) : List String :=
  let n_select := n_select_val quality_sents.length
  let top_indices := order.drop (order.length - n_select)
  (top_indices.insertionSort (· ≤ ·)).map (fun i => quality_sents.getD i "")

/-- `HierarchicalSummarizer.extractive_summary` (at the call-site ratio
0.4): fewer than 3 sentences or no quality sentences return the text
unchanged without touching the encoder; otherwise the encoder is loaded
and the selected sentences are space-joined in index order. -/
def extractive_summary (caps : Caps) (text : String) (s : MState) :
    String × MState × List MState :=
  let sentences := caps.sent_tokenize text
  if sentences.length < 3 then (text, s, [s])
  else
    let quality_sents := sentences.filter quality_sentence
    if quality_sents = [] then (text, s, [s])
    else
      let s1 := load_sentence_encoder s
      (pyJoin " " (selected_sentences quality_sents (caps.argsort quality_sents)), s1, [s, s1])

/-- `HierarchicalSummarizer._clean_summary`: split on periods, drop a
trailing fragment shorter than 10 characters, re-join the stripped
nonempty pieces with `'. '`, ensure terminal punctuation. -/
def clean_summary (summary : String) : String :=
  let sentences := pySplitOn summary "."
  let sentences2 :=
    if 1 < sentences.length ∧ (pyStrip (sentences.getLastD "")).length < 10 then
      sentences.dropLast
    else sentences
  let joined := pyJoin ". " ((sentences2.map pyStrip).filter (fun x => x ≠ ""))
  if joined ≠ "" ∧ ¬(pyEndsWith joined "." = true) then joined ++ "." else joined

/-- `HierarchicalSummarizer.abstractive_summary`: empty (after strip)
input returns `""` before the summarizer is loaded; otherwise the
summarizer is loaded and the generation capability's output cleaned. -/
def abstractive_summary (caps : Caps) (text : String) (max_length : Nat) (s : MState) :
    String × MState × List MState :=
  if pyStrip text = "" then ("", s, [s])
  else
    let s1 := load_summarizer s
    (clean_summary (caps.generate text max_length), s1, [s, s1])

/-- `HierarchicalSummarizer.extract_keywords`: empty list when the
KeyBERT model is unavailable or the text is empty, otherwise the keyword
capability's top-`n` terms. -/
def extract_keywords (caps : Caps) (text : String) (n : Nat) : List String :=
  match caps.kw_model with
  | none => []
  | some kw => if text = "" then [] else kw text n

/-- `HierarchicalSummarizer.summarize_section`: clean; short-circuit
below 50 words; extractive (ratio 0.4) then encoder unload; abstractive
with section-dependent length then summarizer unload; keywords (top 5).
Returns (summary, keywords, final state, state trace). -/
def summarize_section (caps : Caps) (section_text section_name : String) (s : MState) :
    String × List String × MState × List MState :=
  let clean_text := preprocess_text section_text
  if (pySplitWs clean_text).length < 50 then (clean_text, [], s, [s])
  else
    let r1 := extractive_summary caps clean_text s
    let s2 := unload_sentence_encoder r1.2.1
    let max_len := if section_name = "introduction" ∨ section_name = "conclusion" then 200 else 150
    let r2 := abstractive_summary caps r1.1 max_len s2
    let s4 := unload_summarizer r2.2.1
    let keywords := extract_keywords caps r2.1 5
    (r2.1, keywords, s4, r1.2.2 ++ s2 :: r2.2.2 ++ [s4])

/-! ### Concrete capability instances and inputs

Closed instances of the capability parameters, used to witness the
theorems below on concrete runs and to exhibit counterexamples.  The
tokenizers are legitimate instances of the sentence-tokenizer contract
(they return the sentence list of the text under test). -/

/-- A long methodology sentence (142 chars, process verb `train`, ends
with a period, but its 120-char truncation does not). -/
def fc_long : String :=
  "We train the deep neural network model on the large annotated corpus and we tune every hyperparameter with great care to reach the best score."

/-- A medium methodology sentence (65 chars, `then`/`evaluate`, ends
with a period). -/
def fc_mid : String := "We then evaluate the trained system on several held out datasets."

/-- A sentence below the 30-char step threshold. -/
def fc_short : String := "It works."

/-- Sentence tokenizer returning the three sentences above. -/
def tok_fc : String → List String := fun _ => [fc_long, fc_mid, fc_short]

/-- Methodology text under test for the flowchart (142 chars ≥ 100). -/
def text_fc : String := fc_long

/-- The first step the code extracts from `text_fc`: the 120-char
truncation of `fc_long` plus the appended ellipsis — 123 characters. -/
def step_fc : String := (extract_steps (tok_fc text_fc)).getD 0 ""

/-- All-purpose concrete capabilities for the summarizer: a `|`-splitting
sentence tokenizer, the identity argsort, a constant generator, a
constant keyword model. -/
def caps0 : Caps :=
  { sent_tokenize := fun s => pySplitOn s "|"
    argsort := fun l => List.range l.length
    generate := fun _ _ => "A generated summary of the section."
    kw_model := some (fun _ _ => ["keyword"]) }

/-- Eight quality sentences (each 31–500 chars and at least 5 words). -/
def qsents8 : List String :=
  ["Alpha beta gamma delta epsilon zeta number one.",
   "Alpha beta gamma delta epsilon zeta number two.",
   "Alpha beta gamma delta epsilon zeta number three.",
   "Alpha beta gamma delta epsilon zeta number four.",
   "Alpha beta gamma delta epsilon zeta number five.",
   "Alpha beta gamma delta epsilon zeta number six.",
   "Alpha beta gamma delta epsilon zeta number seven.",
   "Alpha beta gamma delta epsilon zeta number eight.",
   "Tiny."]

/-- Capabilities whose tokenizer yields `qsents8` (eight quality
sentences and one below the quality threshold) and whose argsort is the
identity permutation. -/
def caps3 : Caps :=
  { sent_tokenize := fun _ => qsents8
    argsort := fun l => List.range l.length
    generate := fun _ _ => ""
    kw_model := none }

/-- The text fed to `caps3` (its constant tokenizer ignores it). -/
def text3 : String := "input text under analysis for the extractive selection stage"

/-- Regex-engine capability returning the match `BERT` for every
pattern (as the engine does on a text consisting of `BERT` mentions). -/
def finditer0 : String → String → List String := fun _ _ => ["BERT"]

/-- Concrete source text for the entity-extraction witnesses. -/
def text6 : String := "BERT and BERT appear here."

/-- A structured-content list with a single body block (no headers). -/
def content0 : List ContentItem :=
  [{ text := "This is a sufficiently long text block for the body of the paper.",
     is_header := false }]

/-- A short section body: fewer than 50 words after cleaning. -/
def t9 : String := "This forty word section body is short. It stays as it is. [1]"

/-! ### Helper lemmas -/

/-- `extractive_summary` either leaves the state alone with the
singleton trace, or loads the encoder, with both states in the trace. -/
theorem extractive_summary_cases (caps : Caps) (text : String) (s : MState) :
    (extractive_summary caps text s).2 = (s, [s]) ∨
    (extractive_summary caps text s).2 =
      (load_sentence_encoder s, [s, load_sentence_encoder s]) := by
  simp only [extractive_summary]
  split
  · exact Or.inl rfl
  · split
    · exact Or.inl rfl
    · exact Or.inr rfl

/-- `abstractive_summary` either leaves the state alone with the
singleton trace, or loads the summarizer, with both states in the trace. -/
theorem abstractive_summary_cases (caps : Caps) (text : String) (n : Nat) (s : MState) :
    (abstractive_summary caps text n s).2 = (s, [s]) ∨
    (abstractive_summary caps text n s).2 = (load_summarizer s, [s, load_summarizer s]) := by
  simp only [abstractive_summary]
  split
  · exact Or.inl rfl
  · exact Or.inr rfl

/-- If the summarizer is not resident on entry, no state during
`extractive_summary` has both models resident, and the summarizer is
still not resident in the final state. -/
theorem extractive_trace_ok (caps : Caps) (text : String) (s : MState)
    (h : s.summarizer = false) :
    ((extractive_summary caps text s).2.2).all
      (fun st => !(st.sentence_encoder && st.summarizer)) = true ∧
    (extractive_summary caps text s).2.1.summarizer = false := by
  rcases extractive_summary_cases caps text s with h1 | h1 <;>
    rw [h1] <;> simp [load_sentence_encoder, h]

/-- If the encoder is not resident on entry, no state during
`abstractive_summary` has both models resident, and the encoder is still
not resident in the final state. -/
theorem abstractive_trace_ok (caps : Caps) (text : String) (n : Nat) (s : MState)
    (h : s.sentence_encoder = false) :
    ((abstractive_summary caps text n s).2.2).all
      (fun st => !(st.sentence_encoder && st.summarizer)) = true ∧
    (abstractive_summary caps text n s).2.1.sentence_encoder = false := by
  rcases abstractive_summary_cases caps text n s with h1 | h1 <;>
    rw [h1] <;> simp [load_summarizer, h]

/-! ### C2 -/

/-- Claim C2: (code_bug evidence).  The claim says a bare header whose text
equals a synonym of the keyword table is matched to that synonym's
category — e.g. `introduction`, `methodology`, `discussion`,
`conclusion`.  The code's roman-numeral prefix regex
`^[ivxlcdm]+\.?\s*` instead strips the leading letters of those very
words (`introduction → ntroduction`, `methodology → ethodology`,
`discussion → scussion`, `conclusion → onclusion`), after which no
synonym matches, so `_match_section` returns `None` on all of them, and
likewise on the numbered form `1. introduction`; headers whose first
letter is not in `[ivxlcdm]` (e.g. `abstract`, `results`) still match as
the claim describes. -/
theorem C2_match_section_failing_inputs :
    match_section "introduction" = none ∧
    match_section "methodology" = none ∧
    match_section "discussion" = none ∧
    match_section "conclusion" = none ∧
    match_section "1. introduction" = none ∧
    match_section "abstract" = some "abstract" ∧
    match_section "results" = some "results" := by
  decide

/-! ### C9 -/

/-- Claim C9: (confirmed).  When the cleaned section text has fewer than 50
words, `summarize_section` returns that cleaned text verbatim with an
empty keyword list; the state is unchanged and the trace is the single
initial state, so none of the extractive, abstractive or keyword stages
ran. -/
theorem C9_short_circuit (caps : Caps) (section_text section_name : String) (s : MState)
    (h : (pySplitWs (preprocess_text section_text)).length < 50) :
    summarize_section caps section_text section_name s =
      (preprocess_text section_text, [], s, [s]) := by
  simp only [summarize_section]
  rw [if_pos h]

/-- Witness for C9 at the concrete 13-word section body `t9`. -/
theorem C9_short_circuit_witness :
    (pySplitWs (preprocess_text t9)).length < 50 ∧
    summarize_section caps0 t9 "results" ⟨false, false⟩ =
      (preprocess_text t9, [], ⟨false, false⟩, [⟨false, false⟩]) :=
  ⟨by decide, C9_short_circuit caps0 t9 "results" ⟨false, false⟩ (by decide)⟩

/-! ### C10 -/

/-- Claim C10: (confirmed).  If the text tokenizes into fewer than 3
sentences, or no sentence passes the quality filter (strictly between 30
and 500 characters and at least 5 words), `extractive_summary` returns
the input text unchanged, the state untouched, and a singleton trace —
the sentence encoder is never loaded. -/
theorem C10_extractive_passthrough (caps : Caps) (text : String) (s : MState)
    (h : (caps.sent_tokenize text).length < 3 ∨
         (caps.sent_tokenize text).filter quality_sentence = []) :
    extractive_summary caps text s = (text, s, [s]) := by
  simp only [extractive_summary]
  rcases h with h | h
  · rw [if_pos h]
  · by_cases h3 : (caps.sent_tokenize text).length < 3
    · rw [if_pos h3]
    · rw [if_neg h3, if_pos h]

/-- Witness for C10: `caps0`'s tokenizer splits on `|`, so this text is
a single sentence. -/
theorem C10_extractive_passthrough_witness :
    ((caps0.sent_tokenize "One single sentence only.").length < 3 ∨
      (caps0.sent_tokenize "One single sentence only.").filter quality_sentence = []) ∧
    extractive_summary caps0 "One single sentence only." ⟨false, false⟩ =
      ("One single sentence only.", ⟨false, false⟩, [⟨false, false⟩]) :=
  ⟨Or.inl (by decide),
   C10_extractive_passthrough caps0 "One single sentence only." ⟨false, false⟩
     (Or.inl (by decide))⟩

/-! ### C1 -/

/-- Claim C1: (confirmed).  Starting from the state of a fresh (or
quiescent) `HierarchicalSummarizer`, in which neither model is resident,
every state passed through during `summarize_section` — for every
capability instantiation, section text and section name — has at most
one of the sentence encoder and the summarizer resident: the encoder is
loaded (at most) during the extractive stage, unloaded before the
abstractive stage loads the summarizer, and the summarizer is unloaded
before keyword extraction. -/
theorem C1_model_residency (caps : Caps) (section_text section_name : String) (s : MState)
    (h : s = ⟨false, false⟩) :
    ((summarize_section caps section_text section_name s).2.2.2).all
      (fun st => !(st.sentence_encoder && st.summarizer)) = true := by
  subst h
  simp only [summarize_section]
  split
  · rfl
  · have h1 := extractive_trace_ok caps (preprocess_text section_text) ⟨false, false⟩ rfl
    have h2 := abstractive_trace_ok caps
      (extractive_summary caps (preprocess_text section_text) ⟨false, false⟩).1
      (if section_name = "introduction" ∨ section_name = "conclusion" then 200 else 150)
      (unload_sentence_encoder
        (extractive_summary caps (preprocess_text section_text) ⟨false, false⟩).2.1) rfl
    rw [List.all_append, List.all_append, List.all_cons, List.all_cons, List.all_nil,
      h1.1, h2.1]
    simp [unload_sentence_encoder, unload_summarizer]

/-- Witness for C1 on a concrete run of `summarize_section` with the
concrete capabilities `caps0` and a 60-word section body. -/
theorem C1_model_residency_witness :
    ((summarize_section caps0
        "Alpha beta gamma delta epsilon. Alpha beta gamma delta epsilon. Alpha beta gamma delta epsilon. Alpha beta gamma delta epsilon. Alpha beta gamma delta epsilon. Alpha beta gamma delta epsilon. Alpha beta gamma delta epsilon. Alpha beta gamma delta epsilon. Alpha beta gamma delta epsilon. Alpha beta gamma delta epsilon. Alpha beta gamma delta epsilon. Alpha beta gamma delta epsilon."
        "methodology" ⟨false, false⟩).2.2.2).all
      (fun st => !(st.sentence_encoder && st.summarizer)) = true :=
  C1_model_residency caps0 _ "methodology" ⟨false, false⟩ rfl

/-! ### C8 and C4 (flowchart) -/

/-- `_build_mermaid` on a two-step list is precisely the 4-node / 3-edge
linear graph. -/
theorem build_mermaid_two (s1 s2 : String) :
    build_mermaid [s1, s2] = mermaid_two_steps s1 s2 := by
  simp [build_mermaid, mermaid_two_steps, nodeLinesGo, edgeLines, String.append_assoc]
  rfl

/-- Claim C8: (confirmed).  `generate_flowchart` returns `null` exactly
when the text is shorter than 100 characters, or tokenizes into fewer
than 3 sentences, or yields fewer than 2 qualifying steps; and when at
least 3 sentences yield exactly 2 qualifying steps, the serialized graph
is precisely `Start`, `S1`, `S2`, `End` with the edges `Start→S1`,
`S1→S2`, `S2→End`. -/
theorem C8_flowchart_nullability (sent_tok : String → List String) (text : String) :
    (generate_flowchart sent_tok text = none ↔
      text.length < 100 ∨ (sent_tok text).length < 3 ∨
      (extract_steps (sent_tok text)).length < 2) ∧
    (∀ s1 s2, ¬text.length < 100 → ¬(sent_tok text).length < 3 →
      extract_steps (sent_tok text) = [s1, s2] →
      generate_flowchart sent_tok text = some (mermaid_two_steps s1 s2)) := by
  constructor
  · simp only [generate_flowchart]
    split_ifs with hA hB hC
    · simp [hA]
    · simp [hB]
    · simp [hC]
    · simp [hA, hB, hC]
  · intro s1 s2 hA hB hsteps
    simp only [generate_flowchart]
    rw [if_neg hA, if_neg hB, hsteps]
    rw [if_neg (by simp)]
    exact congrArg some (build_mermaid_two s1 s2)

set_option maxRecDepth 100000 in
/-- Witness for C8 on the concrete three-sentence methodology text
`text_fc`, which yields exactly two qualifying steps. -/
theorem C8_flowchart_nullability_witness :
    generate_flowchart tok_fc text_fc = some (mermaid_two_steps step_fc fc_mid) :=
  (C8_flowchart_nullability tok_fc text_fc).2 step_fc fc_mid (by decide) (by decide) (by decide)

/-- Every step accumulated by the `_extract_steps` loop is at most 123
characters long, provided the accumulator satisfies the same bound: the
candidate is truncated to 120 characters and, when the truncation does
not already end in a period, a 3-character ellipsis is appended. -/
theorem extract_stepsGo_length_le (sents : List String) :
    ∀ (steps seen : List String), (∀ s ∈ steps, s.length ≤ 123) →
      ∀ s ∈ extract_stepsGo sents steps seen, s.length ≤ 123 := by
  induction sents with
  | nil => intro steps seen h; simpa [extract_stepsGo] using h
  | cons sent rest ih =>
      intro steps seen h
      have hlen : (pyTake (pyStrip sent) 120).length ≤ 120 := by
        simp only [pyTake, String.length]
        have h120 := List.length_take 120 (pyStrip sent).data
        omega
      have hdot : ∀ x ∈ steps ++ [pyTake (pyStrip sent) 120], x.length ≤ 123 := by
        intro x hx
        rcases List.mem_append.1 hx with h1 | h1
        · exact h x h1
        · rcases List.mem_singleton.1 h1 with rfl
          omega
      have hell : ∀ x ∈ steps ++ [pyTake (pyStrip sent) 120 ++ "..."], x.length ≤ 123 := by
        intro x hx
        rcases List.mem_append.1 hx with h1 | h1
        · exact h x h1
        · rcases List.mem_singleton.1 h1 with rfl
          have h3 : (pyTake (pyStrip sent) 120 ++ "...").length =
              (pyTake (pyStrip sent) 120).length + 3 := by
            rw [String.length_append]
            rfl
          omega
      intro s hs
      simp only [extract_stepsGo] at hs
      split at hs
      all_goals try split at hs
      all_goals try split at hs
      all_goals try split at hs
      all_goals try split at hs
      all_goals first
        | exact ih steps seen h s hs
        | exact hdot s hs
        | exact hell s hs
        | exact ih _ _ hdot s hs
        | exact ih _ _ hell s hs

/-- Claim C4 amended: (the claim's bound 120 is corrected to 123).  Every
step description of a non-null flowchart is at most 123 characters long:
the sentence is truncated to 120 characters and, when the truncation
does not end in a period, the code appends the 3-character ellipsis
*after* truncating. -/
theorem C4_step_length_amended (sent_tok : String → List String) (text : String)
    (_hsome : generate_flowchart sent_tok text ≠ none) :
    ∀ step ∈ extract_steps (sent_tok text), step.length ≤ 123 := by
  intro step hs
  exact extract_stepsGo_length_le _ [] [] (by simp) step hs

set_option maxRecDepth 100000 in
/-- Witness for the amended C4 on the concrete flowchart of `text_fc`:
its first step has length 123 (≤ 123). -/
theorem C4_step_length_amended_witness : step_fc.length ≤ 123 :=
  C4_step_length_amended tok_fc text_fc (by decide) step_fc (by decide)

set_option maxRecDepth 100000 in
/-- Claim C4 counterexample.  The claim bounds step descriptions by 120
characters; on the methodology text `text_fc` the produced flowchart is
non-null and its first step description has 123 characters (the 120-char
truncation of a 142-char sentence plus the appended `...`). -/
theorem C4_step_length_counterexample :
    generate_flowchart tok_fc text_fc ≠ none ∧
    step_fc ∈ extract_steps (tok_fc text_fc) ∧
    120 < step_fc.length := by
  refine ⟨by decide, by decide, by decide⟩

/-! ### C5 (section-map key invariant) -/

/-- A match returned by the keyword-table loop is a key of the table. -/
theorem matchFirst_mem (tc : List Char) :
    ∀ (tbl : List (String × List String)) (m : String),
      matchFirst tc tbl = some m → m ∈ tbl.map Prod.fst := by
  intro tbl
  induction tbl with
  | nil => intro m h; simp [matchFirst] at h
  | cons hd tl ih =>
      intro m h
      simp only [matchFirst] at h
      split at h
      · simp only [Option.some.injEq] at h
        simp [h]
      · simpa using Or.inr (ih m h)

/-- `_match_section` only ever returns keys of `SECTION_KEYWORDS`. -/
theorem match_section_mem (t m : String) (h : match_section t = some m) :
    m ∈ SECTION_KEYWORDS.map Prod.fst :=
  matchFirst_mem _ SECTION_KEYWORDS m h

/-- Keys after a `defaultdict` append: the old keys plus possibly the
appended one. -/
theorem addToSection_keys (acc : List (String × List String)) (k v : String) :
    ∀ k1 ∈ (addToSection acc k v).map Prod.fst, k1 ∈ acc.map Prod.fst ∨ k1 = k := by
  induction acc with
  | nil => intro k1 h; simp [addToSection] at h; simp [h]
  | cons hd tl ih =>
      intro k1 h
      simp only [addToSection] at h
      split at h
      · rcases (List.mem_map.1 h) with ⟨p, hp, rfl⟩
        rcases List.mem_cons.1 hp with rfl | hp2
        · simp
        · exact Or.inl (by simpa using Or.inr (List.mem_map_of_mem Prod.fst hp2))
      · rcases (List.mem_map.1 h) with ⟨p, hp, rfl⟩
        rcases List.mem_cons.1 hp with rfl | hp2
        · simp
        · rcases ih p.1 (List.mem_map_of_mem Prod.fst hp2) with h1 | h1
          · exact Or.inl (by simpa using Or.inr h1)
          · exact Or.inr h1

/-- The allowed current-section labels during grouping: the initial
`introduction` plus the keyword-table keys. -/
def allowed_labels : List String := "introduction" :: SECTION_KEYWORDS.map Prod.fst

/-- Invariant of the grouping loop: if the current label and every
accumulated key are allowed, every key of the result is allowed. -/
theorem groupGo_keys (items : List ContentItem) :
    ∀ (current : String) (acc : List (String × List String)),
      current ∈ allowed_labels →
      (∀ k ∈ acc.map Prod.fst, k ∈ allowed_labels) →
      ∀ k ∈ (groupGo items current acc).map Prod.fst, k ∈ allowed_labels := by
  induction items with
  | nil => intro current acc _ hacc; simpa [groupGo] using hacc
  | cons item rest ih =>
      intro current acc hcur hacc
      have hadd : ∀ k ∈ (addToSection acc current item.text).map Prod.fst,
          k ∈ allowed_labels := by
        intro k hk
        rcases addToSection_keys acc current item.text k hk with h1 | rfl
        · exact hacc k h1
        · exact hcur
      simp only [groupGo]
      split
      · rename_i m hm
        split
        · exact ih m acc (List.mem_cons_of_mem _ (match_section_mem _ m hm)) hacc
        · split
          · exact ih current acc hcur hacc
          · exact ih current _ hcur hadd
      · split
        · exact ih current acc hcur hacc
        · exact ih current _ hcur hadd

/-- Claim C5: (confirmed).  For every parsed structured-content list, the
section map returned by the segmenter never contains the key
`references`, and every key it does contain belongs to the fixed
vocabulary {abstract, introduction, related_work, methodology,
experiments, results, discussion, conclusion} (with `introduction` the
default initial section). -/
theorem C5_section_vocab (structured_content : List ContentItem) :
    "references" ∉ (extract_sections structured_content).map Prod.fst ∧
    ∀ k ∈ (extract_sections structured_content).map Prod.fst, k ∈ section_vocab := by
  have hgroup : ∀ k ∈ (group_into_sections structured_content).map Prod.fst,
      k ∈ allowed_labels := by
    intro k hk
    simp only [group_into_sections, List.map_map] at hk
    rcases List.mem_map.1 hk with ⟨p, hp, rfl⟩
    have hp2 : p ∈ groupGo structured_content "introduction" [] := (List.mem_filter.1 hp).1
    exact groupGo_keys structured_content "introduction" [] (by simp [allowed_labels])
      (by simp) p.1 (List.mem_map_of_mem Prod.fst hp2)
  have hsub : ∀ k ∈ allowed_labels, k = "references" ∨ k ∈ section_vocab := by decide
  constructor
  · intro hk
    rcases List.mem_map.1 hk with ⟨p, hp, hp1⟩
    have := (List.mem_filter.1 hp).2
    simp only [decide_eq_true_eq] at this
    exact this hp1
  · intro k hk
    rcases List.mem_map.1 hk with ⟨p, hp, rfl⟩
    have hmem := List.mem_filter.1 hp
    have hal : p.1 ∈ allowed_labels :=
      hgroup p.1 (List.mem_map_of_mem Prod.fst hmem.1)
    have hne : p.1 ≠ "references" := by
      have := hmem.2
      simpa using this
    rcases hsub p.1 hal with h | h
    · exact absurd h hne
    · exact h

/-- Witness for C5 on the concrete one-block content `content0` (whose
only key is the default label `introduction`). -/
theorem C5_section_vocab_witness :
    "references" ∉ (extract_sections content0).map Prod.fst ∧
    "introduction" ∈ section_vocab :=
  ⟨(C5_section_vocab content0).1,
   (C5_section_vocab content0).2 "introduction" (by decide)⟩

/-! ### C7 (entity validation) -/

/-- Claim C7: (confirmed).  The validator accepts a candidate string iff
its length is in [2,50], it contains at least one alphabetic character,
and at most 3/10 of its characters are ASCII punctuation (the embedded
form of `special_count / len > 0.3`); in particular `"@@@x"`
(density 3/4) is rejected and `"BERT-2"` (density 1/6) is accepted; and
every string of every category of every `extract_entities` bundle
passes the validator. -/
theorem C7_entity_validation (e ty ctx : String) :
    (validate_entity e ty ctx = true ↔
      (2 ≤ e.length ∧ e.length ≤ 50 ∧ e.data.any Char.isAlpha = true ∧
       10 * punctCount e ≤ 3 * e.length)) ∧
    validate_entity "@@@x" ty ctx = false ∧
    validate_entity "BERT-2" ty ctx = true ∧
    (∀ (finditer : String → String → List String) (text cat : String) (l : List String)
       (x : String), (cat, l) ∈ extract_entities finditer text → x ∈ l →
       validate_entity x cat text = true) := by
  refine ⟨?_, by rfl, by rfl, ?_⟩
  · simp only [validate_entity]
    split_ifs with h1 h2 h3
    · simp only [false_iff]
      rintro ⟨ha, hb, -, -⟩
      simp only [Bool.or_eq_true, decide_eq_true_eq] at h1
      omega
    · simp only [false_iff]
      rintro ⟨-, -, hc, -⟩
      simp only [Bool.not_eq_true'] at h2
      simp [hc] at h2
    · simp only [false_iff]
      rintro ⟨-, -, -, hd⟩
      simp only [decide_eq_true_eq] at h3
      omega
    · simp only [true_iff]
      simp only [Bool.or_eq_true, decide_eq_true_eq, not_or] at h1
      simp only [Bool.not_eq_true'] at h2
      simp only [decide_eq_true_eq, Nat.not_lt] at h3
      refine ⟨by omega, by omega, ?_, by omega⟩
      simpa using h2
  · intro finditer text cat l x hcl hx
    simp only [extract_entities] at hcl
    rcases List.mem_append.1 hcl with h1 | h1
    · rcases List.mem_map.1 h1 with ⟨cp, hcp, heq⟩
      have hcp2 := (List.mem_filter.1 hcp).1
      rcases List.mem_map.1 hcp2 with ⟨q, hqmem, hq⟩
      subst hq
      dsimp only at heq
      rw [Prod.mk.injEq] at heq
      obtain ⟨hcat, hl⟩ := heq
      have hx2 : x ∈ (category_matches finditer text q.1 q.2).insertionSort (freqGe text) :=
        List.mem_of_mem_take (hl ▸ hx)
      have hx3 : x ∈ category_matches finditer text q.1 q.2 :=
        ((List.perm_insertionSort (freqGe text) _).mem_iff).1 hx2
      simp only [category_matches, List.mem_dedup, List.mem_filter] at hx3
      rw [← hcat]
      exact hx3.2
    · rcases List.mem_map.1 h1 with ⟨k, hk, heq⟩
      rw [Prod.mk.injEq] at heq
      rw [← heq.2] at hx
      simp at hx

set_option maxRecDepth 100000 in
/-- Witness for C7: `BERT-2` is accepted, and the member `BERT` of the
`models` category of a concrete bundle passes the validator. -/
theorem C7_entity_validation_witness :
    validate_entity "BERT-2" "models" "" = true ∧
    validate_entity "BERT" "models" text6 = true :=
  ⟨(C7_entity_validation "BERT-2" "models" "").2.2.1,
   (C7_entity_validation "BERT" "models" "").2.2.2 finditer0 text6 "models" ["BERT"] "BERT"
     (by decide) (by decide)⟩

/-! ### C6 (entity-bundle shape) -/

/-- The canonical-keys completion loop appends pairs whose keys are
exactly the appended key list. -/
theorem map_fst_pad (l : List String) :
    (l.map (fun k => (k, ([] : List String)))).map Prod.fst = l := by
  induction l with
  | nil => rfl
  | cons a t ih =>
      simp only [List.map_cons]
      rw [ih]

/-- Sorting and truncating the category lists leaves the keys unchanged. -/
theorem map_fst_sorted_trunc (text : String) (l1 : List (String × List String)) :
    (l1.map (fun cp => (cp.1, (cp.2.insertionSort (freqGe text)).take 15))).map Prod.fst =
      l1.map Prod.fst := by
  induction l1 with
  | nil => rfl
  | cons a t ih =>
      simp only [List.map_cons]
      rw [ih]

/-- Claim C6: (confirmed).  For every regex-engine capability and text, the
bundle returned by `extract_entities` has exactly the five keys
{models, datasets, metrics, frameworks, techniques} (no duplicates, and
membership is equivalent to membership in the canonical key list); and
each category's sequence has pairwise-distinct strings, at most 15 of
them, ordered by descending count of (non-overlapping) occurrences of
the string in the input text. -/
theorem C6_entity_bundle (finditer : String → String → List String) (text : String) :
    ((extract_entities finditer text).map Prod.fst).Nodup ∧
    (∀ k, k ∈ (extract_entities finditer text).map Prod.fst ↔ k ∈ entity_categories) ∧
    (∀ cat l, (cat, l) ∈ extract_entities finditer text →
      l.Nodup ∧ l.length ≤ 15 ∧ l.Sorted (freqGe text)) := by
  have hEkeys : ((entity_patterns.map
      (fun cp => (cp.1, category_matches finditer text cp.1 cp.2))).map Prod.fst) =
      ["models", "datasets", "metrics", "frameworks"] := by rfl
  have hsub1 : (((entity_patterns.map
        (fun cp => (cp.1, category_matches finditer text cp.1 cp.2))).filter
        (fun cp => cp.2 ≠ [])).map Prod.fst).Sublist
        ["models", "datasets", "metrics", "frameworks"] := by
    rw [← hEkeys]
    exact (List.filter_sublist _).map Prod.fst
  have hfour : ∀ k ∈ (["models", "datasets", "metrics", "frameworks"] : List String),
      k ∈ entity_categories := by decide
  refine ⟨?_, ?_, ?_⟩
  · -- keys are duplicate-free
    simp only [extract_entities, List.map_append]
    rw [map_fst_sorted_trunc, map_fst_pad]
    refine List.Nodup.append (hsub1.nodup (by decide))
      ((List.filter_sublist _).nodup (by decide)) ?_
    intro k hkA hkB
    have hc := (List.mem_filter.1 hkB).2
    simp only [Bool.not_eq_true', List.contains, List.elem_eq_mem,
      decide_eq_false_iff_not] at hc
    exact hc hkA
  · -- key membership is exactly the canonical five
    intro k
    simp only [extract_entities, List.map_append, List.mem_append]
    rw [map_fst_sorted_trunc, map_fst_pad]
    constructor
    · rintro (h | h)
      · exact hfour k (hsub1.subset h)
      · exact (List.mem_filter.1 h).1
    · intro h
      by_cases hmem : k ∈ ((entity_patterns.map
            (fun cp => (cp.1, category_matches finditer text cp.1 cp.2))).filter
            (fun cp => cp.2 ≠ [])).map Prod.fst
      · exact Or.inl hmem
      · refine Or.inr (List.mem_filter.2 ⟨h, ?_⟩)
        simp only [Bool.not_eq_true', List.contains, List.elem_eq_mem,
          decide_eq_false_iff_not]
        exact hmem
  · -- per-category sequences: distinct, capped at 15, frequency-sorted
    intro cat l hcl
    simp only [extract_entities] at hcl
    rcases List.mem_append.1 hcl with h1 | h1
    · rcases List.mem_map.1 h1 with ⟨cp, hcp, heq⟩
      rw [Prod.mk.injEq] at heq
      obtain ⟨-, hl⟩ := heq
      have hcp2 := (List.mem_filter.1 hcp).1
      rcases List.mem_map.1 hcp2 with ⟨q, hqmem, hq⟩
      have hcm : cp.2 = category_matches finditer text q.1 q.2 :=
        (congrArg Prod.snd hq).symm
      have hnodup : cp.2.Nodup := by
        rw [hcm]
        exact List.nodup_dedup _
      have hsortnodup : (cp.2.insertionSort (freqGe text)).Nodup :=
        ((List.perm_insertionSort (freqGe text) cp.2).nodup_iff).2 hnodup
      refine ⟨?_, ?_, ?_⟩
      · rw [← hl]
        exact (List.take_sublist 15 _).nodup hsortnodup
      · rw [← hl]
        exact List.length_take_le _ _
      · rw [← hl]
        exact List.Pairwise.sublist (List.take_sublist _ _)
          (List.sorted_insertionSort (freqGe text) cp.2)
    · rcases List.mem_map.1 h1 with ⟨k, hk, heq⟩
      rw [Prod.mk.injEq] at heq
      rw [← heq.2]
      simp

set_option maxRecDepth 100000 in
/-- Witness for C6 on a concrete bundle: its keys are duplicate-free,
`models` is a key iff it is canonical, and the concrete `models`
sequence `[BERT]` is distinct, capped and sorted. -/
theorem C6_entity_bundle_witness :
    ((extract_entities finditer0 text6).map Prod.fst).Nodup ∧
    ("models" ∈ (extract_entities finditer0 text6).map Prod.fst ↔
      "models" ∈ entity_categories) ∧
    (["BERT"].Nodup ∧ (["BERT"] : List String).length ≤ 15 ∧
      List.Sorted (freqGe text6) ["BERT"]) :=
  ⟨(C6_entity_bundle finditer0 text6).1,
   (C6_entity_bundle finditer0 text6).2.1 "models",
   (C6_entity_bundle finditer0 text6).2.2 "models" ["BERT"] (by decide)⟩

/-! ### C3 (extractive selection) -/

/-- Indexing a list at a pairwise-increasing list of in-range indices
yields a sublist (the selected sentences keep their original order). -/
theorem map_getD_sublist {α : Type} (l : List α) (d : α) (is : List Nat)
    (hb : ∀ i ∈ is, i < l.length) (hp : is.Pairwise (· < ·)) :
    (is.map (fun i => l.getD i d)).Sublist l := by
  have h1 : is.map (fun i => l.getD i d) =
      (is.pmap (fun i h => (⟨i, h⟩ : Fin l.length)) hb).map (fun x => l[x]) := by
    rw [List.map_pmap]
    symm
    calc (is.pmap (fun a h => l[(⟨a, h⟩ : Fin l.length)]) hb)
        = is.pmap (fun a _h => l.getD a d) hb :=
          List.pmap_congr_left is (fun a _ha h1 _h2 => (List.getD_eq_getElem l d h1).symm)
      _ = is.map (fun a => l.getD a d) := List.pmap_eq_map _ _ _ _
  rw [h1]
  apply List.map_getElem_sublist
  rw [List.pairwise_pmap]
  exact hp.imp (fun h _ _ => h)

/-- Claim C3 amended: (the claim's `ceil(0.4·n)` is corrected to the
truncation `⌊0.4·n⌋` actually computed by `int(len(quality_sents) *
0.4)`, so for n = 8 quality sentences 3 — not 4 — sentences are
selected).  Whenever the selection stage runs (at least 3 sentences, at
least one of quality) and the argsort capability returns a permutation
of the index range (numpy's contract), `extractive_summary` returns the
space-join of exactly `min(max(3, ⌊0.4·n⌋), n)` selected quality
sentences, and the selected sentences form a sublist of the quality
sentences — original document order, never reordered by score. -/
theorem C3_selection_amended (caps : Caps) (text : String) (s : MState)
    (h3 : 3 ≤ (caps.sent_tokenize text).length)
    (hq : (caps.sent_tokenize text).filter quality_sentence ≠ [])
    (hperm : (caps.argsort ((caps.sent_tokenize text).filter quality_sentence)).Perm
      (List.range ((caps.sent_tokenize text).filter quality_sentence).length)) :
    (extractive_summary caps text s).1 =
      pyJoin " " (selected_sentences ((caps.sent_tokenize text).filter quality_sentence)
        (caps.argsort ((caps.sent_tokenize text).filter quality_sentence))) ∧
    (selected_sentences ((caps.sent_tokenize text).filter quality_sentence)
        (caps.argsort ((caps.sent_tokenize text).filter quality_sentence))).length =
      min (n_select_val ((caps.sent_tokenize text).filter quality_sentence).length)
        ((caps.sent_tokenize text).filter quality_sentence).length ∧
    (selected_sentences ((caps.sent_tokenize text).filter quality_sentence)
        (caps.argsort ((caps.sent_tokenize text).filter quality_sentence))).Sublist
      ((caps.sent_tokenize text).filter quality_sentence) := by
  set qs := (caps.sent_tokenize text).filter quality_sentence with hqs
  set order := caps.argsort qs with horder
  have hlen : order.length = qs.length := hperm.length_eq.trans (List.length_range _)
  have hordnodup : order.Nodup := hperm.nodup_iff.2 (List.nodup_range _)
  have htopnodup : (order.drop (order.length - n_select_val qs.length)).Nodup :=
    (List.drop_sublist _ _).nodup hordnodup
  have hsortnodup :
      ((order.drop (order.length - n_select_val qs.length)).insertionSort (· ≤ ·)).Nodup :=
    (List.perm_insertionSort _ _).nodup_iff.2 htopnodup
  have hsorted :
      List.Sorted (· ≤ ·)
        ((order.drop (order.length - n_select_val qs.length)).insertionSort (· ≤ ·)) :=
    List.sorted_insertionSort _ _
  refine ⟨?_, ?_, ?_⟩
  · simp only [extractive_summary]
    rw [if_neg (by omega), if_neg hq]
  · simp only [selected_sentences]
    rw [List.length_map, (List.perm_insertionSort _ _).length_eq, List.length_drop, hlen]
    omega
  · simp only [selected_sentences]
    apply map_getD_sublist
    · intro i hi
      have h1 : i ∈ order.drop (order.length - n_select_val qs.length) :=
        ((List.perm_insertionSort _ _).mem_iff).1 hi
      have h2 : i ∈ order := (List.drop_sublist _ _).subset h1
      exact List.mem_range.1 (hperm.subset h2)
    · exact (hsorted.and hsortnodup).imp (fun h => lt_of_le_of_ne h.1 h.2)

set_option maxRecDepth 100000 in
/-- Claim C3 counterexample.  The claim says the selected-sentence count
is `min(n, max(3, ceil(0.4·n)))`, which at n = 8 is `min 8 (max 3 4) =
4` (the claim's worked example).  On a concrete input with exactly 8
quality sentences the code's `int(8 * 0.4) = 3` (truncation, not
ceiling) makes it select only 3 sentences. -/
theorem C3_selection_counterexample :
    ((caps3.sent_tokenize text3).filter quality_sentence).length = 8 ∧
    (extractive_summary caps3 text3 ⟨false, false⟩).1 =
      pyJoin " " (selected_sentences ((caps3.sent_tokenize text3).filter quality_sentence)
        (caps3.argsort ((caps3.sent_tokenize text3).filter quality_sentence))) ∧
    (selected_sentences ((caps3.sent_tokenize text3).filter quality_sentence)
      (caps3.argsort ((caps3.sent_tokenize text3).filter quality_sentence))).length = 3 ∧
    min 8 (max 3 ((2 * 8 + 4) / 5)) = 4 :=
  ⟨by decide, by decide, by decide, by decide⟩

set_option maxRecDepth 100000 in
/-- Witness for the amended C3 on the concrete 8-quality-sentence input:
the formula gives `min (max 3 ⌊16/5⌋) 8 = 3` selected sentences in
original order. -/
theorem C3_selection_amended_witness :
    (extractive_summary caps3 text3 ⟨false, false⟩).1 =
      pyJoin " " (selected_sentences ((caps3.sent_tokenize text3).filter quality_sentence)
        (caps3.argsort ((caps3.sent_tokenize text3).filter quality_sentence))) ∧
    (selected_sentences ((caps3.sent_tokenize text3).filter quality_sentence)
        (caps3.argsort ((caps3.sent_tokenize text3).filter quality_sentence))).length =
      min (n_select_val ((caps3.sent_tokenize text3).filter quality_sentence).length)
        ((caps3.sent_tokenize text3).filter quality_sentence).length ∧
    (selected_sentences ((caps3.sent_tokenize text3).filter quality_sentence)
        (caps3.argsort ((caps3.sent_tokenize text3).filter quality_sentence))).Sublist
      ((caps3.sent_tokenize text3).filter quality_sentence) :=
  C3_selection_amended caps3 text3 ⟨false, false⟩ (by decide) (by decide) (by decide)

end PaperMind
